import Mathlib

/-!
# Verification of the `customstore` record-query engine

A shallow embedding of the query builder and statement compiler of the
`customstore` Go package (`RecordQuery`, `Validate`, `ToSelectDataset` and
its helpers), together with theorems settling the specification claims.

Modelling conventions:
* The Go struct `recordQueryImplementation` becomes the structure
  `RecordQuery`; pointer-receiver mutation becomes explicit state passing
  (each setter returns the updated query, and `ToSelectDataset` returns the
  possibly mutated query alongside the dataset, mirroring the in-place
  `SetLimit(10)` performed by `applyPagination`).
* The external goqu query builder is embedded by the structure
  `SelectDataset`: `Where` appends an AND-joined condition, `Limit`/`Offset`
  set optional fields, `Order` replaces the ordering.  goqu's `C`/`I`
  identifier wrappers both become plain column-name strings.
* Go `int` becomes `Int`; the `uint(...)` casts in `applyPagination` become
  `goUint` (wrap into 64 bits, as on a 64-bit platform).
* The clock (`carbon.Now(carbon.UTC).ToDateTimeString()`) is injected as the
  parameter `now : String`; datetime strings of the fixed format compare
  chronologically as strings, matching the SQL comparison the `Gt` predicate
  compiles to.
* `strings.TrimSpace` becomes `trimSpace` below (strip leading and trailing
  whitespace), written over the character list so it evaluates inside the
  kernel.
-/

namespace Customstore

/-- Modelled from the spec: the column-name constants `COLUMN_ID`,
`COLUMN_RECORD_TYPE`, `COLUMN_SOFT_DELETED_AT` are declared in a source file
not provided; spec section 6 lists the table columns as
id, type, payload, memo, metas, created_at, updated_at, soft_deleted_at. -/
def COLUMN_ID : String := "id"

/-- Modelled from the spec: see `COLUMN_ID`. -/
def COLUMN_RECORD_TYPE : String := "type"

/-- Modelled from the spec: see `COLUMN_ID`. -/
def COLUMN_SOFT_DELETED_AT : String := "soft_deleted_at"

/-- Sort-direction constant `sb.DESC` of the external `dracory/sb` package. -/
def sbDESC : String := "desc"

/-- Sort-direction constant `sb.ASC` of the external `dracory/sb` package. -/
def sbASC : String := "asc"

/-- `strings.EqualFold` restricted to ASCII arguments (the only use site
compares against the ASCII constants `sbASC`/`sbDESC`). -/
def eqFold (a b : String) : Bool := a.toLower == b.toLower

/-- Drop leading whitespace characters from a character list. -/
def dropLeadingWS : List Char → List Char
  | [] => []
  | c :: cs => if c.isWhitespace then dropLeadingWS cs else c :: cs

/-- Go's `strings.TrimSpace`: strip leading and trailing whitespace. -/
def trimSpace (s : String) : String :=
  ⟨(dropLeadingWS ((dropLeadingWS s.data).reverse)).reverse⟩

/-- SQL boolean expressions produced by the goqu calls the compiler makes:
`C(col).Eq(v)`, `C(col).In(vs)`, `I(col).Like(p)`, `I(col).NotLike(p)`,
`Or(es...)`, `And(es...)`, `C(col).Gt(v)`. -/
inductive Expr where
  | eq (col : String) (val : String)
  | inList (col : String) (vals : List String)
  | like (col : String) (pat : String)
  | notLike (col : String) (pat : String)
  | orE (es : List Expr)
  | andE (es : List Expr)
  | gt (col : String) (val : String)
deriving Repr

/-- The part of goqu's `SelectDataset` state that the compiler touches:
accumulated WHERE conditions (joined with AND), optional LIMIT and OFFSET,
optional ORDER BY (column and whether ascending). -/
structure SelectDataset where
  table : String
  wheres : List Expr
  limit : Option Nat
  offset : Option Nat
  order : Option (String × Bool)
deriving Repr

/-- `goqu.Dialect(driver).From(table)`: a fresh dataset.  The dialect only
selects output syntax, so the embedding keeps just the table. -/
def goquFrom (_driver table : String) : SelectDataset :=
  { table := table, wheres := [], limit := none, offset := none, order := none }

/-- goqu `.Where(e)`: appends one AND-joined condition. -/
def SelectDataset.whereC (q : SelectDataset) (e : Expr) : SelectDataset :=
  { q with wheres := q.wheres ++ [e] }

/-- goqu `.Limit(n)`. -/
def SelectDataset.limitN (q : SelectDataset) (n : Nat) : SelectDataset :=
  { q with limit := some n }

/-- goqu `.Offset(n)`. -/
def SelectDataset.offsetN (q : SelectDataset) (n : Nat) : SelectDataset :=
  { q with offset := some n }

/-- goqu `.Order(I(col).Asc())`. -/
def SelectDataset.orderAsc (q : SelectDataset) (col : String) : SelectDataset :=
  { q with order := some (col, true) }

/-- goqu `.Order(I(col).Desc())`. -/
def SelectDataset.orderDesc (q : SelectDataset) (col : String) : SelectDataset :=
  { q with order := some (col, false) }

/-- Go's `uint(n)` conversion of an `int` on a 64-bit platform. -/
def goUint (n : Int) : Nat := (n % (2 : Int) ^ 64).toNat

/-- The Go struct `recordQueryImplementation`. -/
structure RecordQuery where
  hasID : Bool
  id : String
  hasIDList : Bool
  idList : List String
  isTypeSet : Bool
  recordType : String
  columns : List String
  isCountOnly : Bool
  isSoftDeletedIncluded : Bool
  isLimitSet : Bool
  limit : Int
  isOffsetSet : Bool
  offset : Int
  isOrderBySet : Bool
  orderBy : String
  payloadSearch : List String
  payloadSearchNot : List String
deriving Repr, DecidableEq

/-- `NewRecordQuery()`: the zero-but-for-explicit-fields initial query. -/
def NewRecordQuery : RecordQuery :=
  { hasID := false, id := "", hasIDList := false, idList := [],
    isTypeSet := false, recordType := "", columns := [],
    isCountOnly := false, isSoftDeletedIncluded := false,
    isLimitSet := false, limit := 0, isOffsetSet := false, offset := 0,
    isOrderBySet := false, orderBy := "",
    payloadSearch := [], payloadSearchNot := [] }

def SetColumns (o : RecordQuery) (columns : List String) : RecordQuery :=
  { o with columns := columns }

def SetCountOnly (o : RecordQuery) (countOnly : Bool) : RecordQuery :=
  { o with isCountOnly := countOnly }

/-- `SetID`: an empty id clears the has-id flag, a non-empty one sets it;
the value is stored either way. -/
def SetID (o : RecordQuery) (id : String) : RecordQuery :=
  if id = "" then { o with hasID := false, id := id }
  else { o with hasID := true, id := id }

def SetIDList (o : RecordQuery) (ids : List String) : RecordQuery :=
  { o with hasIDList := true, idList := ids }

def SetSoftDeletedIncluded (o : RecordQuery) (b : Bool) : RecordQuery :=
  { o with isSoftDeletedIncluded := b }

def SetLimit (o : RecordQuery) (limit : Int) : RecordQuery :=
  { o with isLimitSet := true, limit := limit }

def SetOffset (o : RecordQuery) (offset : Int) : RecordQuery :=
  { o with isOffsetSet := true, offset := offset }

def SetOrderBy (o : RecordQuery) (orderBy : String) : RecordQuery :=
  { o with isOrderBySet := true, orderBy := orderBy }

def SetType (o : RecordQuery) (recordType : String) : RecordQuery :=
  { o with isTypeSet := true, recordType := recordType }

/-- `AddPayloadSearch` appends (the Go nil-check only swaps nil for an empty
slice, invisible in the embedding). -/
def AddPayloadSearch (o : RecordQuery) (needle : String) : RecordQuery :=
  { o with payloadSearch := o.payloadSearch ++ [needle] }

def AddPayloadSearchNot (o : RecordQuery) (needle : String) : RecordQuery :=
  { o with payloadSearchNot := o.payloadSearchNot ++ [needle] }

/-- `Validate`, returning `some errorMessage` for Go's non-nil error. -/
def Validate (o : RecordQuery) : Option String :=
  if o.hasID ∧ o.id = "" then some "id is required"
  else if o.hasIDList ∧ o.idList.length = 0 then some "id list is required"
  else
    let filtered := o.idList.filter (fun id => trimSpace id ≠ "")
    if o.hasIDList ∧ filtered.length ≠ o.idList.length then
      some "id list contains empty strings"
    else if o.isTypeSet ∧ o.recordType = "" then some "type is required"
    else none

/-- `applyPayloadWhere`: the include substrings form one OR-group of LIKE
conditions, each exclude substring one NOT LIKE condition; all collected
conditions are joined with AND into a single WHERE clause. -/
def applyPayloadWhere (o : RecordQuery) (q : SelectDataset) : SelectDataset :=
  let conds : List Expr := []
  let conds := if o.payloadSearch.length > 0 then
      conds ++ [Expr.orE (o.payloadSearch.map
        (fun v => Expr.like "payload" ("%" ++ v ++ "%")))]
    else conds
  let conds := if o.payloadSearchNot.length > 0 then
      conds ++ o.payloadSearchNot.map
        (fun v => Expr.notLike "payload" ("%" ++ v ++ "%"))
    else conds
  if conds.length = 0 then q else q.whereC (Expr.andE conds)

/-- `applyPagination`: mutates the receiver (`SetLimit(10)` when an offset
is set without a limit), hence also returns the updated query. -/
def applyPagination (o : RecordQuery) (q : SelectDataset) :
    SelectDataset × RecordQuery :=
  let o := if o.isOffsetSet ∧ ¬ o.isLimitSet then SetLimit o 10 else o
  if o.isCountOnly then (q, o)
  else
    let q := if o.isLimitSet then q.limitN (goUint o.limit) else q
    let q := if o.isOffsetSet then q.offsetN (goUint o.offset) else q
    (q, o)

/-- `applyOrderBy`. -/
def applyOrderBy (o : RecordQuery) (q : SelectDataset) (defaultOrder : String) :
    SelectDataset :=
  if ¬ o.isOrderBySet then q
  else if eqFold defaultOrder sbASC then q.orderAsc o.orderBy
  else q.orderDesc o.orderBy

/-- `selectedColumns` (the Go version boxes each column into `any`). -/
def selectedColumns (o : RecordQuery) : List String := o.columns

/-- `softDeletedExpr`: `soft_deleted_at > now`. -/
def softDeletedExpr (now : String) : Expr :=
  Expr.gt COLUMN_SOFT_DELETED_AT now

/-- `ToSelectDataset`: validate, then either return the bare dataset when
soft-deleted records are requested, or apply the filter pipeline.  Returns
the dataset, the projected columns, and the (possibly mutated) query. -/
def ToSelectDataset (o : RecordQuery) (now : String)
    (driver table : String) :
    Except String (SelectDataset × List String × RecordQuery) :=
  match Validate o with
  | some e => .error e
  | none =>
    let q := goquFrom driver table
    if o.isSoftDeletedIncluded then .ok (q, [], o)
    else
      let q := if o.hasID then q.whereC (Expr.eq COLUMN_ID o.id) else q
      let q :=
        if o.hasIDList then
          let ids := o.idList.filter (fun v => trimSpace v ≠ "")
          if ids.length > 0 then q.whereC (Expr.inList COLUMN_ID ids) else q
        else q
      let q := applyPayloadWhere o q
      let pr := applyPagination o q
      let q := pr.1
      let o := pr.2
      let q := applyOrderBy o q sbDESC
      let columns := selectedColumns o
      let q := if o.isTypeSet then
          q.whereC (Expr.eq COLUMN_RECORD_TYPE o.recordType)
        else q
      .ok (q.whereC (softDeletedExpr now), columns, o)

/-- Row semantics of the produced SQL expressions.  A row is a map from
column name to stored string; `likeSem value pattern` is the SQL LIKE
relation, kept abstract (the compiler only ever builds `%needle%`
patterns).  String `<` is the comparison SQL applies to the datetime
strings stored in the timestamp columns. -/
def evalExpr (likeSem : String → String → Bool) (row : String → String) :
    Expr → Bool
  | Expr.eq c v => row c == v
  | Expr.inList c vs => vs.contains (row c)
  | Expr.like c p => likeSem (row c) p
  | Expr.notLike c p => !(likeSem (row c) p)
  | Expr.orE [] => false
  | Expr.orE (e :: es) =>
      evalExpr likeSem row e || evalExpr likeSem row (Expr.orE es)
  | Expr.andE [] => true
  | Expr.andE (e :: es) =>
      evalExpr likeSem row e && evalExpr likeSem row (Expr.andE es)
  | Expr.gt c v => decide (v < row c)

/-- The spec's characterization of the soft-deleted state: a record is
soft-deleted iff its `softDeletedAt` is strictly less than now.  Stated
from the spec's words, for comparison with the compiled predicate. -/
def specSoftDeleted (softDeletedAt now : String) : Prop :=
  softDeletedAt < now

/-! ## Helper lemmas -/

lemma filter_eq_nil_of_forall_fail (p : String → Bool) :
    ∀ (l : List String), (∀ v ∈ l, p v = false) → l.filter p = [] := by
  intro l
  induction l with
  | nil => intro _; rfl
  | cons x xs ih =>
    intro h
    have hx := h x (by simp)
    simp only [List.filter_cons, hx]
    exact ih (fun v hv => h v (by simp [hv]))

lemma length_filter_lt_of_exists_fail (p : String → Bool) :
    ∀ (l : List String), (∃ v ∈ l, p v = false) → (l.filter p).length < l.length := by
  intro l
  induction l with
  | nil => rintro ⟨v, hv, _⟩; exact absurd hv (List.not_mem_nil v)
  | cons x xs ih =>
    rintro ⟨v, hv, hpv⟩
    by_cases hx : p x = true
    · have hvxs : v ∈ xs := by
        rcases List.mem_cons.mp hv with h | h
        · exact absurd hpv (by simp [h, hx])
        · exact h
      simp only [List.filter_cons, hx, if_pos rfl, List.length_cons]
      exact Nat.succ_lt_succ (ih ⟨v, hvxs, hpv⟩)
    · have hx2 : p x = false := by
        cases hpx : p x with
        | false => rfl
        | true => exact absurd hpx hx
      simp only [List.filter_cons, hx2, List.length_cons]
      exact Nat.lt_succ_of_le (List.length_filter_le p xs)

/-- The list of payload conditions accumulated by `applyPayloadWhere`
(include OR-group first, then the exclude conditions), pulled out of the
function for reasoning. -/
def payloadConds (o : RecordQuery) : List Expr :=
  (if o.payloadSearch.length > 0 then
    [Expr.orE (o.payloadSearch.map (fun v => Expr.like "payload" ("%" ++ v ++ "%")))]
  else []) ++
  (if o.payloadSearchNot.length > 0 then
    o.payloadSearchNot.map (fun v => Expr.notLike "payload" ("%" ++ v ++ "%"))
  else [])

lemma applyPayloadWhere_eq (o : RecordQuery) (q : SelectDataset) :
    applyPayloadWhere o q =
      if (payloadConds o).length = 0 then q
      else q.whereC (Expr.andE (payloadConds o)) := by
  simp only [applyPayloadWhere, payloadConds]
  split_ifs <;> simp_all

lemma whereC_wheres (q : SelectDataset) (e : Expr) :
    (q.whereC e).wheres = q.wheres ++ [e] := rfl

lemma whereC_limit (q : SelectDataset) (e : Expr) : (q.whereC e).limit = q.limit := rfl

lemma whereC_offset (q : SelectDataset) (e : Expr) : (q.whereC e).offset = q.offset := rfl

lemma applyOrderBy_wheres (o : RecordQuery) (q : SelectDataset) (d : String) :
    (applyOrderBy o q d).wheres = q.wheres := by
  simp only [applyOrderBy]
  split_ifs <;> rfl

lemma applyOrderBy_limit (o : RecordQuery) (q : SelectDataset) (d : String) :
    (applyOrderBy o q d).limit = q.limit := by
  simp only [applyOrderBy]
  split_ifs <;> rfl

lemma applyOrderBy_offset (o : RecordQuery) (q : SelectDataset) (d : String) :
    (applyOrderBy o q d).offset = q.offset := by
  simp only [applyOrderBy]
  split_ifs <;> rfl

lemma applyPagination_wheres (o : RecordQuery) (q : SelectDataset) :
    (applyPagination o q).1.wheres = q.wheres := by
  simp only [applyPagination]
  split_ifs <;> rfl

lemma applyPagination_fst_of_countOnly (o : RecordQuery) (q : SelectDataset)
    (h : o.isCountOnly = true) : (applyPagination o q).1 = q := by
  simp only [applyPagination]
  split_ifs <;> first | rfl | simp_all [SetLimit]

lemma applyPagination_snd_isTypeSet (o : RecordQuery) (q : SelectDataset) :
    (applyPagination o q).2.isTypeSet = o.isTypeSet := by
  simp only [applyPagination, SetLimit]
  split_ifs <;> rfl

lemma applyPagination_snd_recordType (o : RecordQuery) (q : SelectDataset) :
    (applyPagination o q).2.recordType = o.recordType := by
  simp only [applyPagination, SetLimit]
  split_ifs <;> rfl

lemma goUint_ten : goUint 10 = 10 := by decide

/-- Full characterization of the WHERE list produced by `ToSelectDataset`:
empty under the soft-delete override, otherwise the concatenation of the
ID, ID-list, payload and type predicates (each present iff its filter
applies) followed by the soft-delete predicate. -/
lemma toSelect_wheres_eq (o : RecordQuery) (now driver table : String)
    (ds : SelectDataset) (cols : List String) (o2 : RecordQuery)
    (h : ToSelectDataset o now driver table = .ok (ds, cols, o2)) :
    ds.wheres =
      if o.isSoftDeletedIncluded = true then [] else
      (if o.hasID = true then [Expr.eq COLUMN_ID o.id] else []) ++
      (if o.hasIDList = true then
        (if 0 < (o.idList.filter (fun v => trimSpace v ≠ "")).length
          then [Expr.inList COLUMN_ID (o.idList.filter (fun v => trimSpace v ≠ ""))]
          else [])
        else []) ++
      (if (payloadConds o).length = 0 then [] else [Expr.andE (payloadConds o)]) ++
      (if o.isTypeSet = true then [Expr.eq COLUMN_RECORD_TYPE o.recordType] else []) ++
      [softDeletedExpr now] := by
  simp only [ToSelectDataset] at h
  split at h
  · exact absurd h (by simp)
  · split at h
    next hsoft =>
      simp only [Except.ok.injEq, Prod.mk.injEq] at h
      obtain ⟨hds, -, -⟩ := h
      rw [← hds, if_pos hsoft]
      rfl
    next hsoft =>
      simp only [Except.ok.injEq, Prod.mk.injEq] at h
      obtain ⟨hds, -, -⟩ := h
      rw [← hds, if_neg hsoft]
      simp only [whereC_wheres, applyOrderBy_wheres, applyPagination_wheres,
        applyPayloadWhere_eq, applyPagination_snd_isTypeSet,
        applyPagination_snd_recordType, apply_ite SelectDataset.wheres,
        goquFrom]
      split_ifs <;> simp_all

/-! ## Claims -/

/-- C1 (amended): when a validated query requests soft-deleted records
included, `ToSelectDataset` returns immediately after validation with the
bare, unfiltered dataset and an empty column list: no filter step at all is
applied — in particular the statement carries no type predicate even when
the type filter is set. -/
theorem C1_softDelete_override_returns_unfiltered :
    ∀ (o : RecordQuery) (now driver table : String),
    o.isSoftDeletedIncluded = true → Validate o = none →
    ToSelectDataset o now driver table = .ok (goquFrom driver table, [], o) := by
  intro o now driver table h hv
  unfold ToSelectDataset
  rw [hv]
  simp [h]

/-- C1 counterexample: a query that validates, requests soft-deleted records
included and has a type filter set compiles to a statement whose WHERE list
is empty, so the type predicate `type = "article"` is absent. -/
theorem C1_counterexample :
    Validate (SetType (SetSoftDeletedIncluded NewRecordQuery true) "article") = none ∧
    (SetType (SetSoftDeletedIncluded NewRecordQuery true) "article").isSoftDeletedIncluded
      = true ∧
    (SetType (SetSoftDeletedIncluded NewRecordQuery true) "article").isTypeSet = true ∧
    ToSelectDataset (SetType (SetSoftDeletedIncluded NewRecordQuery true) "article")
        "2024-01-01 00:00:00" "sqlite3" "custom_records"
      = .ok (goquFrom "sqlite3" "custom_records", [],
          SetType (SetSoftDeletedIncluded NewRecordQuery true) "article") ∧
    Expr.eq COLUMN_RECORD_TYPE "article" ∉ (goquFrom "sqlite3" "custom_records").wheres := by
  refine ⟨rfl, rfl, rfl, rfl, ?_⟩
  simp [goquFrom]

/-- C1 witness: the amended theorem applied to a concrete validated query. -/
theorem C1_witness :
    ToSelectDataset (SetSoftDeletedIncluded NewRecordQuery true) "2024" "sqlite3" "t"
      = .ok (goquFrom "sqlite3" "t", [], SetSoftDeletedIncluded NewRecordQuery true) :=
  C1_softDelete_override_returns_unfiltered
    (SetSoftDeletedIncluded NewRecordQuery true) "2024" "sqlite3" "t" rfl rfl

/-- C2 (amended): a query whose ID-list filter is set to a non-empty list
containing only blank (empty-after-trim) entries does *not* pass `Validate`:
the blank-stripped list is shorter than the original, so `Validate` returns
"id list contains empty strings" and `ToSelectDataset` propagates that error
instead of compiling a no-op filter. -/
theorem C2_allBlank_idList_fails_validation :
    ∀ (o : RecordQuery), o.hasIDList = true → o.idList ≠ [] →
    (∀ v ∈ o.idList, trimSpace v = "") → ¬(o.hasID = true ∧ o.id = "") →
    Validate o = some "id list contains empty strings" ∧
    ∀ now driver table,
      ToSelectDataset o now driver table = .error "id list contains empty strings" := by
  intro o h1 h2 h3 h4
  have hf : o.idList.filter (fun id => trimSpace id ≠ "") = [] := by
    apply filter_eq_nil_of_forall_fail
    intro v hv
    simp [h3 v hv]
  have hval : Validate o = some "id list contains empty strings" := by
    simp only [Validate]
    split_ifs with hA hB hC
    · exact absurd (List.length_eq_zero.mp hA.2) h2
    · rfl
    · exact absurd ⟨h1, by
        rw [hf]; exact fun hh => h2 (List.length_eq_zero.mp hh.symm)⟩ hB
    · exact absurd ⟨h1, by
        rw [hf]; exact fun hh => h2 (List.length_eq_zero.mp hh.symm)⟩ hB
  refine ⟨hval, ?_⟩
  intro now driver table
  unfold ToSelectDataset
  rw [hval]

/-- C2 counterexample: the list `[""]` is non-empty and contains only blank
entries, yet `Validate` fails (the claim asserted it succeeds) and
compilation propagates the error. -/
theorem C2_counterexample :
    Validate (SetIDList NewRecordQuery [""]) = some "id list contains empty strings" ∧
    Validate (SetIDList NewRecordQuery [""]) ≠ none ∧
    ToSelectDataset (SetIDList NewRecordQuery [""]) "2024" "sqlite3" "t"
      = .error "id list contains empty strings" := by
  refine ⟨by decide, by decide, ?_⟩
  unfold ToSelectDataset
  rw [show Validate (SetIDList NewRecordQuery [""])
      = some "id list contains empty strings" by decide]

/-- C2 witness: the amended theorem applied to the concrete query whose
ID list is `[""]`. -/
theorem C2_witness :
    Validate (SetIDList NewRecordQuery [""]) = some "id list contains empty strings" ∧
    ∀ now driver table,
      ToSelectDataset (SetIDList NewRecordQuery [""]) now driver table
        = .error "id list contains empty strings" :=
  C2_allBlank_idList_fails_validation (SetIDList NewRecordQuery [""])
    rfl (by decide) (by decide) (by decide)

/-- C3 (amended): the compiled soft-delete predicate keeps a row iff its
soft-delete timestamp is strictly in the future relative to now; hence it
excludes a row iff the row is soft-deleted (timestamp strictly in the past)
*or* its timestamp equals now exactly — the two characterizations of the
claim agree everywhere except at the `softDeletedAt = now` boundary, where
the row is excluded without being soft-deleted. -/
theorem C3_softDelete_predicate_boundary :
    ∀ (likeSem : String → String → Bool) (row : String → String) (now t : String),
    row COLUMN_SOFT_DELETED_AT = t →
    (evalExpr likeSem row (softDeletedExpr now) = false ↔
      (specSoftDeleted t now ∨ t = now)) := by
  intro L row now t h
  have he : evalExpr L row (softDeletedExpr now)
      = decide (now < row COLUMN_SOFT_DELETED_AT) := by
    simp [evalExpr, softDeletedExpr]
  rw [he, h]
  simp [specSoftDeleted, decide_eq_false_iff_not, not_lt, le_iff_lt_or_eq,
    String.ext_iff]

/-- C3 counterexample: at `softDeletedAt = now` the compiled predicate
excludes the row (`evalExpr … = false`) although the row is not soft-deleted
per the spec's strict-past characterization, so "excludes exactly the
soft-deleted records" fails. -/
theorem C3_counterexample :
    ¬ ((evalExpr (fun _ _ => false) (fun _ => "2024-01-01 00:00:00")
          (softDeletedExpr "2024-01-01 00:00:00") = false) ↔
        specSoftDeleted "2024-01-01 00:00:00" "2024-01-01 00:00:00") := by
  intro hiff
  have h1 : evalExpr (fun _ _ => false) (fun _ => "2024-01-01 00:00:00")
      (softDeletedExpr "2024-01-01 00:00:00") = false := by
    simp [evalExpr, softDeletedExpr]
  exact absurd (hiff.mp h1) (by simp [specSoftDeleted])

/-- C3 witness: the amended theorem applied to a concrete row and clock. -/
theorem C3_witness :
    evalExpr (fun _ _ => false) (fun _ => "a") (softDeletedExpr "b") = false ↔
      (specSoftDeleted "a" "b" ∨ "a" = "b") :=
  C3_softDelete_predicate_boundary (fun _ _ => false) (fun _ => "a") "b" "a" rfl

/-- C4: `Validate` distinguishes the two bad ID-list states, first failure
winning (the hypothesis that the earlier ID check passes encodes the check
order): an ID-list set to the empty list yields "id list is required"; a
list mixing blank and real entries yields "id list contains empty strings";
a query that never set the ID-list filter triggers neither error. -/
theorem C4_idList_validation_errors :
    (∀ o : RecordQuery, ¬(o.hasID = true ∧ o.id = "") → o.hasIDList = true →
      o.idList = [] → Validate o = some "id list is required") ∧
    (∀ o : RecordQuery, ¬(o.hasID = true ∧ o.id = "") → o.hasIDList = true →
      (∃ v ∈ o.idList, trimSpace v = "") → (∃ v ∈ o.idList, trimSpace v ≠ "") →
      Validate o = some "id list contains empty strings") ∧
    (∀ o : RecordQuery, o.hasIDList = false →
      Validate o ≠ some "id list is required" ∧
      Validate o ≠ some "id list contains empty strings") := by
  refine ⟨?_, ?_, ?_⟩
  · intro o h4 h1 hnil
    simp only [Validate]
    rw [if_neg h4, if_pos ⟨h1, by rw [hnil]; rfl⟩]
  · intro o h4 h1 hblank hreal
    have hne : o.idList ≠ [] := by
      rintro hn
      rcases hblank with ⟨v, hv, -⟩
      rw [hn] at hv
      exact List.not_mem_nil v hv
    have hlt : (o.idList.filter (fun id => trimSpace id ≠ "")).length
        < o.idList.length := by
      apply length_filter_lt_of_exists_fail
      rcases hblank with ⟨v, hv, hbv⟩
      exact ⟨v, hv, by simp [hbv]⟩
    simp only [Validate]
    split_ifs with hA hB
    · exact absurd (List.length_eq_zero.mp hA.2) hne
    · rfl
    · exact absurd ⟨h1, Nat.ne_of_lt hlt⟩ hB
    · exact absurd ⟨h1, Nat.ne_of_lt hlt⟩ hB
  · intro o h
    simp only [Validate]
    split_ifs with hA hB hC hD
    · exact ⟨by decide, by decide⟩
    · exact absurd hB.1 (by simp [h])
    · exact absurd hC.1 (by simp [h])
    · exact ⟨by decide, by decide⟩
    · exact ⟨by decide, by decide⟩

/-- C4 witness: the three parts applied to concrete queries. -/
theorem C4_witness :
    Validate (SetIDList NewRecordQuery []) = some "id list is required" ∧
    Validate (SetIDList NewRecordQuery ["a", "", "b"])
      = some "id list contains empty strings" ∧
    Validate NewRecordQuery ≠ some "id list is required" :=
  ⟨C4_idList_validation_errors.1 _ (by decide) rfl rfl,
   C4_idList_validation_errors.2.1 _ (by decide) rfl
     ⟨"", by decide, by decide⟩ ⟨"a", by decide, by decide⟩,
   (C4_idList_validation_errors.2.2 NewRecordQuery rfl).1⟩

lemma applyPagination_offset_default (o : RecordQuery) (q : SelectDataset)
    (hc : o.isCountOnly = false) (ho : o.isOffsetSet = true) :
    (o.isLimitSet = false →
      (applyPagination o q).1.limit = some 10 ∧
      (applyPagination o q).1.offset = some (goUint o.offset)) ∧
    (o.isLimitSet = true →
      (applyPagination o q).1.limit = some (goUint o.limit) ∧
      (applyPagination o q).1.offset = some (goUint o.offset)) := by
  constructor
  · intro hl
    simp [applyPagination, ho, hl, hc, SetLimit, SelectDataset.limitN,
      SelectDataset.offsetN, goUint_ten]
  · intro hl
    simp [applyPagination, ho, hl, hc, SelectDataset.limitN,
      SelectDataset.offsetN]

/-- C6: on a non-count-only query with an offset set, `applyPagination`
uses the default limit 10 when no limit was set and the explicitly set
limit otherwise, carrying the requested offset either way; on the normal
(non-override) compilation path these fields reach the statement returned
by `ToSelectDataset` unchanged. -/
theorem C6_pagination_default_limit :
    ∀ (o : RecordQuery) (q : SelectDataset) (now driver table : String)
      (ds : SelectDataset) (cols : List String) (o2 : RecordQuery),
    o.isCountOnly = false → o.isOffsetSet = true →
    ((o.isLimitSet = false →
        (applyPagination o q).1.limit = some 10 ∧
        (applyPagination o q).1.offset = some (goUint o.offset)) ∧
     (o.isLimitSet = true →
        (applyPagination o q).1.limit = some (goUint o.limit) ∧
        (applyPagination o q).1.offset = some (goUint o.offset)) ∧
     (o.isLimitSet = false → o.isSoftDeletedIncluded = false →
        ToSelectDataset o now driver table = .ok (ds, cols, o2) →
        ds.limit = some 10 ∧ ds.offset = some (goUint o.offset))) := by
  intro o q now driver table ds cols o2 hc ho
  refine ⟨(applyPagination_offset_default o q hc ho).1,
    (applyPagination_offset_default o q hc ho).2, ?_⟩
  intro hl hs h
  simp only [ToSelectDataset] at h
  split at h
  · exact absurd h (by simp)
  · split at h
    next hsoft => exact absurd hsoft (by simp [hs])
    next =>
      simp only [Except.ok.injEq, Prod.mk.injEq] at h
      obtain ⟨hds, -, -⟩ := h
      rw [← hds]
      refine ⟨?_, ?_⟩ <;>
        simp only [whereC_limit, whereC_offset, applyOrderBy_limit,
          applyOrderBy_offset, apply_ite SelectDataset.limit,
          apply_ite SelectDataset.offset, ite_self]
      · exact ((applyPagination_offset_default o _ hc ho).1 hl).1
      · exact ((applyPagination_offset_default o _ hc ho).1 hl).2

/-- C6 witness: a concrete offset-only query receives limit 10 and its
offset, both in the pagination step and in the compiled statement. -/
theorem C6_witness :
    (applyPagination (SetOffset NewRecordQuery 5) (goquFrom "sqlite3" "t")).1.limit
      = some 10 ∧
    ({ table := "t", wheres := [softDeletedExpr "2024"], limit := some 10,
       offset := some 5, order := none } : SelectDataset).limit = some 10 ∧
    ({ table := "t", wheres := [softDeletedExpr "2024"], limit := some 10,
       offset := some 5, order := none } : SelectDataset).offset
      = some (goUint (SetOffset NewRecordQuery 5).offset) :=
  ⟨((C6_pagination_default_limit (SetOffset NewRecordQuery 5)
      (goquFrom "sqlite3" "t") "2024" "sqlite3" "t"
      { table := "t", wheres := [softDeletedExpr "2024"], limit := some 10,
        offset := some 5, order := none } []
      (SetLimit (SetOffset NewRecordQuery 5) 10) rfl rfl).1 rfl).1,
   ((C6_pagination_default_limit (SetOffset NewRecordQuery 5)
      (goquFrom "sqlite3" "t") "2024" "sqlite3" "t"
      { table := "t", wheres := [softDeletedExpr "2024"], limit := some 10,
        offset := some 5, order := none } []
      (SetLimit (SetOffset NewRecordQuery 5) 10) rfl rfl).2.2 rfl rfl rfl).1,
   ((C6_pagination_default_limit (SetOffset NewRecordQuery 5)
      (goquFrom "sqlite3" "t") "2024" "sqlite3" "t"
      { table := "t", wheres := [softDeletedExpr "2024"], limit := some 10,
        offset := some 5, order := none } []
      (SetLimit (SetOffset NewRecordQuery 5) 10) rfl rfl).2.2 rfl rfl rfl).2⟩

/-- C5: `SetID ""` clears the is-set flag (even if an ID was set before),
so the compiled statement carries no ID predicate `id = value` for any
value; `SetID` with a non-empty string sets the flag. -/
theorem C5_setID_empty_clears :
    ∀ (o : RecordQuery) (s now driver table : String) (ds : SelectDataset)
      (cols : List String) (o2 : RecordQuery) (v : String),
    (SetID o "").hasID = false ∧
    (s ≠ "" → (SetID o s).hasID = true) ∧
    (ToSelectDataset (SetID o "") now driver table = .ok (ds, cols, o2) →
      Expr.eq COLUMN_ID v ∉ ds.wheres) := by
  intro o s now driver table ds cols o2 v
  refine ⟨by simp [SetID], fun hs => by simp [SetID, hs], fun h => ?_⟩
  rw [toSelect_wheres_eq _ _ _ _ _ _ _ h]
  split_ifs <;>
    simp_all [SetID, COLUMN_ID, COLUMN_RECORD_TYPE, softDeletedExpr]

/-- C5 witness: clearing a previously set ID and compiling leaves no ID
predicate in the statement. -/
theorem C5_witness :
    (SetID (SetID NewRecordQuery "x") "").hasID = false ∧
    (SetID (SetID NewRecordQuery "x") "y").hasID = true ∧
    Expr.eq COLUMN_ID "x" ∉
      ({ table := "t", wheres := [softDeletedExpr "2024"], limit := none,
         offset := none, order := none } : SelectDataset).wheres :=
  ⟨(C5_setID_empty_clears (SetID NewRecordQuery "x") "y" "2024" "d" "t"
      { table := "t", wheres := [softDeletedExpr "2024"], limit := none,
        offset := none, order := none } [] (SetID (SetID NewRecordQuery "x") "") "x").1,
   (C5_setID_empty_clears (SetID NewRecordQuery "x") "y" "2024" "d" "t"
      { table := "t", wheres := [softDeletedExpr "2024"], limit := none,
        offset := none, order := none } [] (SetID (SetID NewRecordQuery "x") "") "x").2.1
     (by decide),
   (C5_setID_empty_clears (SetID NewRecordQuery "x") "y" "2024" "d" "t"
      { table := "t", wheres := [softDeletedExpr "2024"], limit := none,
        offset := none, order := none } [] (SetID (SetID NewRecordQuery "x") "") "x").2.2
     rfl⟩

/-- C8: for a count-only query, the compiled statement carries neither a
limit nor an offset clause, even when limit and/or offset are set. -/
theorem C8_countOnly_no_pagination :
    ∀ (o : RecordQuery) (now driver table : String) (ds : SelectDataset)
      (cols : List String) (o2 : RecordQuery),
    o.isCountOnly = true →
    ToSelectDataset o now driver table = .ok (ds, cols, o2) →
    ds.limit = none ∧ ds.offset = none := by
  intro o now driver table ds cols o2 hc h
  simp only [ToSelectDataset] at h
  split at h
  · exact absurd h (by simp)
  · split at h
    next =>
      simp only [Except.ok.injEq, Prod.mk.injEq] at h
      obtain ⟨hds, -, -⟩ := h
      rw [← hds]
      exact ⟨rfl, rfl⟩
    next =>
      simp only [Except.ok.injEq, Prod.mk.injEq] at h
      obtain ⟨hds, -, -⟩ := h
      rw [← hds]
      refine ⟨?_, ?_⟩ <;>
        simp only [whereC_limit, whereC_offset, applyOrderBy_limit,
          applyOrderBy_offset, applyPagination_fst_of_countOnly, hc,
          applyPayloadWhere_eq, apply_ite SelectDataset.limit,
          apply_ite SelectDataset.offset, goquFrom, ite_self]

/-- C8 witness: a count-only query with both limit and offset explicitly
set still compiles without limit and offset. -/
theorem C8_witness :
    ({ table := "t", wheres := [softDeletedExpr "2024"], limit := none,
       offset := none, order := none } : SelectDataset).limit = none ∧
    ({ table := "t", wheres := [softDeletedExpr "2024"], limit := none,
       offset := none, order := none } : SelectDataset).offset = none :=
  C8_countOnly_no_pagination
    (SetCountOnly (SetLimit (SetOffset NewRecordQuery 3) 7) true) "2024" "d" "t"
    { table := "t", wheres := [softDeletedExpr "2024"], limit := none,
      offset := none, order := none } []
    (SetCountOnly (SetLimit (SetOffset NewRecordQuery 3) 7) true) rfl rfl

/-- C9 (amended): compilation is not side-effect free — for every query
that validates and does not request soft-deleted records included, with an
offset set and no limit set, `ToSelectDataset` hands back the caller's
query mutated by `SetLimit(10)` (this happens even for count-only
queries); the struct-update equality shows every other field is left
unchanged.  A query requesting soft-deleted records is returned untouched
by the short-circuit, refuting the unconditional claim. -/
theorem C9_compile_mutates_query :
    ∀ (o : RecordQuery) (now driver table : String) (ds : SelectDataset)
      (cols : List String) (o2 : RecordQuery),
    o.isSoftDeletedIncluded = false → o.isOffsetSet = true →
    o.isLimitSet = false →
    ToSelectDataset o now driver table = .ok (ds, cols, o2) →
    o2 = { o with isLimitSet := true, limit := 10 } := by
  intro o now driver table ds cols o2 hs ho hl h
  simp only [ToSelectDataset] at h
  split at h
  · exact absurd h (by simp)
  · rw [if_neg (by simp [hs])] at h
    simp only [Except.ok.injEq, Prod.mk.injEq] at h
    obtain ⟨-, -, ho2⟩ := h
    rw [← ho2]
    simp only [applyPagination]
    split_ifs with h1 h2 <;>
      first
        | rfl
        | exact absurd ⟨ho, by simp [hl]⟩ h1

/-- C9 counterexample: a query with an offset, no limit and the soft-delete
override set compiles successfully yet is returned unmutated, with its
is-limit-set flag still false. -/
theorem C9_counterexample :
    (SetOffset (SetSoftDeletedIncluded NewRecordQuery true) 5).isOffsetSet = true ∧
    (SetOffset (SetSoftDeletedIncluded NewRecordQuery true) 5).isLimitSet = false ∧
    ToSelectDataset (SetOffset (SetSoftDeletedIncluded NewRecordQuery true) 5)
        "2024" "sqlite3" "t"
      = .ok (goquFrom "sqlite3" "t", [],
          SetOffset (SetSoftDeletedIncluded NewRecordQuery true) 5) :=
  ⟨rfl, rfl, rfl⟩

/-- C9 witness: on the normal path the returned query is the caller's query
with the limit flag set and limit 10. -/
theorem C9_witness :
    SetLimit (SetOffset NewRecordQuery 5) 10
      = { SetOffset NewRecordQuery 5 with isLimitSet := true, limit := 10 } :=
  C9_compile_mutates_query (SetOffset NewRecordQuery 5) "2024" "sqlite3" "t"
    { table := "t", wheres := [softDeletedExpr "2024"], limit := some 10,
      offset := some 5, order := none } []
    (SetLimit (SetOffset NewRecordQuery 5) 10) rfl rfl rfl rfl

lemma evalExpr_orE_map (L : String → String → Bool) (row : String → String)
    (f : String → Expr) :
    ∀ xs : List String,
    evalExpr L row (Expr.orE (xs.map f)) = xs.any (fun v => evalExpr L row (f v)) := by
  intro xs
  induction xs with
  | nil => simp [evalExpr]
  | cons x xs ih => simp [evalExpr, ih]

lemma evalExpr_andE_map (L : String → String → Bool) (row : String → String)
    (f : String → Expr) :
    ∀ xs : List String,
    evalExpr L row (Expr.andE (xs.map f)) = xs.all (fun v => evalExpr L row (f v)) := by
  intro xs
  induction xs with
  | nil => simp [evalExpr]
  | cons x xs ih => simp [evalExpr, ih]

/-- C7: with at least one must-contain substring, `applyPayloadWhere` adds a
single AND-joined WHERE condition whose head is the OR-group of the include
LIKE patterns followed by one NOT LIKE condition per exclude substring; on
the normal (non-override) path that condition appears in the compiled
statement's WHERE list; and the condition holds of a row iff the payload
column matches at least one include pattern and none of the exclude
patterns. -/
theorem C7_payload_filter_semantics :
    ∀ (o : RecordQuery) (q : SelectDataset) (L : String → String → Bool)
      (row : String → String) (now driver table : String)
      (ds : SelectDataset) (cols : List String) (o2 : RecordQuery),
    o.payloadSearch ≠ [] →
    applyPayloadWhere o q = q.whereC (Expr.andE
      (Expr.orE (o.payloadSearch.map (fun v => Expr.like "payload" ("%" ++ v ++ "%")))
        :: o.payloadSearchNot.map (fun v => Expr.notLike "payload" ("%" ++ v ++ "%")))) ∧
    (o.isSoftDeletedIncluded = false →
      ToSelectDataset o now driver table = .ok (ds, cols, o2) →
      Expr.andE
        (Expr.orE (o.payloadSearch.map (fun v => Expr.like "payload" ("%" ++ v ++ "%")))
          :: o.payloadSearchNot.map (fun v => Expr.notLike "payload" ("%" ++ v ++ "%")))
        ∈ ds.wheres) ∧
    (evalExpr L row (Expr.andE
        (Expr.orE (o.payloadSearch.map (fun v => Expr.like "payload" ("%" ++ v ++ "%")))
          :: o.payloadSearchNot.map (fun v => Expr.notLike "payload" ("%" ++ v ++ "%"))))
        = true ↔
      ((∃ v ∈ o.payloadSearch, L (row "payload") ("%" ++ v ++ "%") = true) ∧
       (∀ v ∈ o.payloadSearchNot, L (row "payload") ("%" ++ v ++ "%") = false))) := by
  intro o q L row now driver table ds cols o2 hne
  have hconds : payloadConds o =
      Expr.orE (o.payloadSearch.map (fun v => Expr.like "payload" ("%" ++ v ++ "%")))
        :: o.payloadSearchNot.map (fun v => Expr.notLike "payload" ("%" ++ v ++ "%")) := by
    cases hn : o.payloadSearchNot with
    | nil => simp [payloadConds, List.length_pos.mpr hne, hn]
    | cons a l => simp [payloadConds, List.length_pos.mpr hne, hn]
  refine ⟨?_, ?_, ?_⟩
  · rw [applyPayloadWhere_eq, hconds, if_neg (by simp)]
  · intro hs h
    rw [toSelect_wheres_eq _ _ _ _ _ _ _ h, if_neg (by simp [hs]),
      if_neg (show ¬((payloadConds o).length = 0) by simp [hconds])]
    apply List.mem_append_left
    apply List.mem_append_left
    apply List.mem_append_right
    simp [hconds]
  · have h1 : evalExpr L row (Expr.andE
        (Expr.orE (o.payloadSearch.map (fun v => Expr.like "payload" ("%" ++ v ++ "%")))
          :: o.payloadSearchNot.map (fun v => Expr.notLike "payload" ("%" ++ v ++ "%"))))
        = (evalExpr L row
            (Expr.orE (o.payloadSearch.map
              (fun v => Expr.like "payload" ("%" ++ v ++ "%")))) &&
           evalExpr L row (Expr.andE (o.payloadSearchNot.map
              (fun v => Expr.notLike "payload" ("%" ++ v ++ "%"))))) := by
      simp [evalExpr]
    rw [h1, evalExpr_orE_map, evalExpr_andE_map]
    simp [evalExpr, List.any_eq_true, List.all_eq_true, Bool.not_eq_true']

/-- C7 witness: a payload condition built from one include substring is in
the compiled WHERE list of a concrete query, and holds of a row under a
like-semantics that matches everything. -/
theorem C7_witness :
    Expr.andE [Expr.orE [Expr.like "payload" "%x%"]] ∈
      ({ table := "t",
         wheres := [Expr.andE [Expr.orE [Expr.like "payload" "%x%"]],
                    softDeletedExpr "2024"],
         limit := none, offset := none, order := none } : SelectDataset).wheres ∧
    evalExpr (fun _ _ => true) (fun _ => "payload-value")
      (Expr.andE [Expr.orE [Expr.like "payload" "%x%"]]) = true :=
  ⟨(C7_payload_filter_semantics (AddPayloadSearch NewRecordQuery "x")
      (goquFrom "d" "t") (fun _ _ => true) (fun _ => "payload-value")
      "2024" "d" "t"
      { table := "t",
        wheres := [Expr.andE [Expr.orE [Expr.like "payload" "%x%"]],
                   softDeletedExpr "2024"],
        limit := none, offset := none, order := none } []
      (AddPayloadSearch NewRecordQuery "x") (by decide)).2.1 rfl rfl,
   (C7_payload_filter_semantics (AddPayloadSearch NewRecordQuery "x")
      (goquFrom "d" "t") (fun _ _ => true) (fun _ => "payload-value")
      "2024" "d" "t"
      { table := "t",
        wheres := [Expr.andE [Expr.orE [Expr.like "payload" "%x%"]],
                   softDeletedExpr "2024"],
        limit := none, offset := none, order := none } []
      (AddPayloadSearch NewRecordQuery "x") (by decide)).2.2.mpr
    ⟨⟨"x", by decide, rfl⟩, fun v hv => absurd hv (List.not_mem_nil v)⟩⟩

/-- Queries constructible through the public builder API: the fresh query,
closed under every exported setter. -/
inductive Reachable : RecordQuery → Prop where
  | new : Reachable NewRecordQuery
  | setColumns (o : RecordQuery) (cs : List String) :
      Reachable o → Reachable (SetColumns o cs)
  | setCountOnly (o : RecordQuery) (b : Bool) :
      Reachable o → Reachable (SetCountOnly o b)
  | setID (o : RecordQuery) (s : String) :
      Reachable o → Reachable (SetID o s)
  | setIDList (o : RecordQuery) (l : List String) :
      Reachable o → Reachable (SetIDList o l)
  | setSoftDeletedIncluded (o : RecordQuery) (b : Bool) :
      Reachable o → Reachable (SetSoftDeletedIncluded o b)
  | setLimit (o : RecordQuery) (n : Int) :
      Reachable o → Reachable (SetLimit o n)
  | setOffset (o : RecordQuery) (n : Int) :
      Reachable o → Reachable (SetOffset o n)
  | setOrderBy (o : RecordQuery) (s : String) :
      Reachable o → Reachable (SetOrderBy o s)
  | setType (o : RecordQuery) (s : String) :
      Reachable o → Reachable (SetType o s)
  | addPayloadSearch (o : RecordQuery) (s : String) :
      Reachable o → Reachable (AddPayloadSearch o s)
  | addPayloadSearchNot (o : RecordQuery) (s : String) :
      Reachable o → Reachable (AddPayloadSearchNot o s)

/-- Through the public API, the has-ID flag is only ever true alongside a
non-empty ID (`SetID ""` clears the flag, `SetID s` with `s ≠ ""` stores
`s`). -/
lemma reachable_id_invariant :
    ∀ o : RecordQuery, Reachable o → o.hasID = true → o.id ≠ "" := by
  intro o h
  induction h with
  | new => decide
  | setColumns _ _ _ ih => exact ih
  | setCountOnly _ _ _ ih => exact ih
  | setID _ s _ _ =>
    unfold SetID
    split_ifs with hs
    · intro hh
      exact absurd hh (by simp)
    · intro _
      simpa using hs
  | setIDList _ _ _ ih => exact ih
  | setSoftDeletedIncluded _ _ _ ih => exact ih
  | setLimit _ _ _ ih => exact ih
  | setOffset _ _ _ ih => exact ih
  | setOrderBy _ _ _ ih => exact ih
  | setType _ _ _ ih => exact ih
  | addPayloadSearch _ _ _ ih => exact ih
  | addPayloadSearchNot _ _ _ ih => exact ih

/-- C10: the validation error "id is required" is unreachable through the
public API: no query built solely with the exported constructors and
setters can have the ID flag set together with an empty ID, so `Validate`
never produces that error on such a query. -/
theorem C10_id_required_unreachable :
    ∀ o : RecordQuery, Reachable o → Validate o ≠ some "id is required" := by
  intro o h
  have hinv := reachable_id_invariant o h
  simp only [Validate]
  split_ifs with hA hB hC hD
  · exact absurd hA.2 (hinv hA.1)
  · decide
  · decide
  · decide
  · decide

/-- C10 witness: a concrete public-API query, with its reachability
derivation built from the constructors. -/
theorem C10_witness :
    Validate (SetID NewRecordQuery "abc") ≠ some "id is required" :=
  C10_id_required_unreachable (SetID NewRecordQuery "abc")
    (Reachable.setID NewRecordQuery "abc" Reachable.new)

end Customstore
